import Mathlib

/-!
Verification development for the `subgraph-mock` server: a shallow embedding of
the latency generator, the request pipeline (caching, error injection, header
attachment), the schema hot-reload path and the federation patcher, with
theorems settling the specification claims against the code.

Machine integers (`u64`, `u32`, `usize`) are modelled as `Nat`.  Rust's
arithmetic panics on underflow and on division/remainder by zero (debug
profile; the release profile wraps subtraction, which is just as far from the
specified values), so the latency shape functions are embedded with checked
operations returning `Option Nat`: `none` is a panic.  Additions and
multiplications at the millisecond scales exercised here are far below
`2^64`, so wraparound of `+` and `*` is immaterial and they are modelled
exactly.
-/

namespace SubgraphMock

/-! ## Latency generator (`src/latency.rs`) -/

/-- Rust `a - b` on `u64`: underflow is a panic (`none`). -/
def checkedSub (a b : Nat) : Option Nat :=
  if b ≤ a then some (a - b) else none

/-- Rust `a % b` on `u64`: remainder by zero is a panic (`none`). -/
def checkedMod (a b : Nat) : Option Nat :=
  if b = 0 then none else some (a % b)

/-- Rust `a / b` on `u64`: division by zero is a panic (`none`). -/
def checkedDiv (a b : Nat) : Option Nat :=
  if b = 0 then none else some (a / b)

/-- Rust `Shape { amplitude, period }`, both converted to whole milliseconds
(`as_millis() as u64`) exactly as `saw_ms`/`square_ms`/`triangle_ms` do. -/
structure Shape where
  amplitude : Nat
  period : Nat
deriving DecidableEq, Repr

/-- Source `latency.rs::saw_ms`:
`(((elapsed + period / 2) % period) / period * amplitude * 2) - amplitude`
in `u64` arithmetic. -/
def saw_ms (s : Shape) (elapsed : Nat) : Option Nat := do
  let m ← checkedMod (elapsed + s.period / 2) s.period
  checkedSub (m / s.period * s.amplitude * 2) s.amplitude

/-- Source `latency.rs::square_ms`: `amplitude` when `elapsed % period < period / 2`
else `0`. -/
def square_ms (s : Shape) (elapsed : Nat) : Option Nat := do
  let m ← checkedMod elapsed s.period
  pure (if m < s.period / 2 then s.amplitude else 0)

/-- Source `latency.rs::triangle_ms`:
`4 * amplitude / (((((elapsed - period / 4) % period) + period) % period) - period / 2) - amplitude`
in `u64` arithmetic. -/
def triangle_ms (s : Shape) (elapsed : Nat) : Option Nat := do
  let d ← checkedSub elapsed (s.period / 4)
  let m ← checkedMod d s.period
  let m2 ← checkedMod (m + s.period) s.period
  let den ← checkedSub m2 (s.period / 2)
  let q ← checkedDiv (4 * s.amplitude) den
  checkedSub q s.amplitude

/-- Rust `LatencyConfig`: base duration plus the four optional shapes. -/
structure LatencyConfig where
  base : Nat
  saw : Option Shape
  sine : Option Shape
  square : Option Shape
  triangle : Option Shape
deriving DecidableEq, Repr

/-- Source `LatencyGenerator::generate` with `elapsed` the whole milliseconds since
`start`.  The sine contribution is computed in `f64` by the source
(`sine_ms`), outside the integer model, so it is taken as an oracle
`sine_ms : Shape → Nat → Nat`; every other step is the source's `u64`
arithmetic: start from `base`, then add the saw, sine, square and triangle
contributions of the configured shapes in that order. -/
def generate (sine_ms : Shape → Nat → Nat) (cfg : LatencyConfig) (elapsed : Nat) :
    Option Nat := do
  let a1 ← match cfg.saw with
    | some s => saw_ms s elapsed
    | none => some 0
  let a2 := match cfg.sine with
    | some s => sine_ms s elapsed
    | none => 0
  let a3 ← match cfg.square with
    | some s => square_ms s elapsed
    | none => some 0
  let a4 ← match cfg.triangle with
    | some s => triangle_ms s elapsed
    | none => some 0
  pure (cfg.base + a1 + a2 + a3 + a4)

/-- Modelled from the spec (§4.1 Saw): the linear ramp from `0` to `A` across
one period with integer truncation: `(t mod P) · A / P`.  At `t mod P = 0` it
is `0` and at the final millisecond of the period it is `A − 1`. -/
def saw_spec (s : Shape) (elapsed : Nat) : Nat :=
  elapsed % s.period * s.amplitude / s.period

/-! ## JSON values (`serde_json_bytes::Value`)

The handler builds responses as `serde_json_bytes::Value` and serializes them
with `serde_json::to_vec`.  Objects preserve insertion order. -/

inductive Json where
  | null
  | bool (b : Bool)
  | num (n : Int)
  | str (s : String)
  | arr (elems : List Json)
  | obj (fields : List (String × Json))

mutual

/-- Model of `serde_json::to_vec` (compact serialization, no spaces).  The
strings that appear in the claims contain no characters that serde would
escape, so string escaping is the identity here.  On these values `to_vec`
never fails. -/
def Json.render : Json → String
  | .null => "null"
  | .bool true => "true"
  | .bool false => "false"
  | .num n => toString n
  | .str s => "\"" ++ s ++ "\""
  | .arr es => "[" ++ Json.renderElems es ++ "]"
  | .obj fs => "\x7b" ++ Json.renderFields fs ++ "\x7d"

def Json.renderElems : List Json → String
  | [] => ""
  | [e] => e.render
  | e :: es => e.render ++ "," ++ Json.renderElems es

def Json.renderFields : List (String × Json) → String
  | [] => ""
  | [(k, v)] => "\"" ++ k ++ "\":" ++ v.render
  | (k, v) :: fs => "\"" ++ k ++ "\":" ++ v.render ++ "," ++ Json.renderFields fs

end

/-! ## Response generation configuration (`src/handle/graphql.rs`) -/

/-- Rust `pub type Ratio = (u32, u32)`. -/
abbrev Ratio := Nat × Nat

/-- Rust `ScalarGenerator`.  The `Float` bounds are `OrderedFloat<f64>`;
their IEEE-754 bit patterns are carried as `Nat`, which is all the hashing
and equality of configurations need. -/
inductive ScalarGenerator where
  | bool
  | float (minBits maxBits : Nat)
  | int (min max : Int)
  | string (minLen maxLen : Nat)
deriving DecidableEq, Repr

/-- Rust `ArraySize { min_length, max_length }`. -/
structure ArraySize where
  minLength : Nat
  maxLength : Nat
deriving DecidableEq, Repr

/-- Rust `GraphQLErrorConfig`. -/
structure GraphQLErrorConfig where
  requestErrorRatio : Option Ratio
  fieldErrorRatio : Option Ratio
deriving DecidableEq, Repr

/-- Rust `ResponseGenerationConfig`.  The `BTreeMap`s are key-sorted
association lists; ordering is irrelevant to the claims below. -/
structure ResponseGenerationConfig where
  scalars : List (String × ScalarGenerator)
  array : ArraySize
  nullRatio : Option Ratio
  headerRatio : List (String × Ratio)
  httpErrorRatio : Option Ratio
  graphqlErrors : GraphQLErrorConfig
deriving DecidableEq, Repr

/-- Association-list lookup, modelling `HashMap::get` / `BTreeMap::get`. -/
def mapGet {α : Type} (m : List (String × α)) (k : String) : Option α :=
  (m.find? (fun e => e.1 == k)).map (fun e => e.2)

/-- Rust `SubgraphOverrides` (`src/state/config.rs`): four maps keyed by
subgraph name.  A `HeaderMap` is modelled by its iteration sequence: hyper
yields `Some(name)` for the first value of each name and `None` for the
following values of the same name. -/
structure SubgraphOverrides where
  headers : List (String × List (Option String × String))
  latencyGenerator : List (String × LatencyConfig)
  responseGeneration : List (String × ResponseGenerationConfig)
  cacheResponses : List (String × Bool)

/-- Rust `Config` (`src/state/config.rs`). -/
structure Config where
  headers : List (Option String × String)
  latencyGenerator : LatencyConfig
  responseGeneration : ResponseGenerationConfig
  cacheResponses : Bool
  subgraphOverrides : SubgraphOverrides

/-! ## Cache fingerprint (`handle`, `src/handle/graphql.rs` lines 58-72) -/

/-- Source `handle` lines 60-62: the effective response-generation config is
the subgraph override when one exists for the routed subgraph, else the base
config. -/
def effectiveRgenCfg (config : Config) (subgraphName : Option String) :
    ResponseGenerationConfig :=
  match subgraphName.bind (fun n => mapGet config.subgraphOverrides.responseGeneration n) with
  | some c => c
  | none => config.responseGeneration

/-- Exactly the data fed to the `DefaultHasher` that produces `cache_hash`
(`handle` lines 68-72): the query text, the effective response-generation
config, and the schema (whose `Hash` impl hashes its retained source text).
The fingerprint itself is `DefaultHasher::finish` applied to this record, a
deterministic function of it; nothing else is hashed. -/
structure FingerprintInputs where
  query : String
  rgenCfg : ResponseGenerationConfig
  schemaSource : String
deriving DecidableEq

/-- Source `handle` lines 58-72 restricted to the fingerprint computation. -/
def fingerprintInputs (config : Config) (subgraphName : Option String)
    (query schemaSource : String) : FingerprintInputs :=
  { query := query
    rgenCfg := effectiveRgenCfg config subgraphName
    schemaSource := schemaSource }

/-! ## Header attachment (`add_headers`, `src/handle/graphql.rs` lines 122-156) -/

/-- Model of hyper `HeaderMap::insert`: all previously stored values for the
name are removed and the single new value is associated with it. -/
def insertReplace (m : List (String × String)) (k v : String) :
    List (String × String) :=
  m.filter (fun e => !(e.1 == k)) ++ [(k, v)]

/-- Loop body of `add_headers`: walk the `(Option<HeaderName>, HeaderValue)`
pairs, remembering the last seen name and its ratio — a pair carrying
`Some(name)` refreshes both, a `None` pair reuses them, so the two cases are
spelled out.  `trial i` is the outcome of the `i`-th `rng.random_ratio`
call; `random_ratio` is invoked only when the remembered ratio is present
(`Option::is_none_or` short-circuits), so ratio-absent names consume no
randomness and always insert. -/
def addHeadersGo (headerRatio : List (String × Ratio)) (trial : Nat → Bool) :
    List (Option String × String) → Nat → String → Option Ratio →
    List (String × String) → List (String × String)
  | [], _, _, _, acc => acc
  | (some n, value) :: rest, i, _, _, acc =>
    match mapGet headerRatio n with
    | none =>
      addHeadersGo headerRatio trial rest i n none (insertReplace acc n value)
    | some r =>
      if trial i then
        addHeadersGo headerRatio trial rest (i + 1) n (some r) (insertReplace acc n value)
      else
        addHeadersGo headerRatio trial rest (i + 1) n (some r) acc
  | (none, value) :: rest, i, lastName, lastRatio, acc =>
    match lastRatio with
    | none =>
      addHeadersGo headerRatio trial rest i lastName none (insertReplace acc lastName value)
    | some r =>
      if trial i then
        addHeadersGo headerRatio trial rest (i + 1) lastName (some r) (insertReplace acc lastName value)
      else
        addHeadersGo headerRatio trial rest (i + 1) lastName (some r) acc

/-- Source `add_headers`: the applicable header list is walked with the
last-seen-name bookkeeping above (starting from the dummy name `unused`),
then `Content-Type: application/json` is unconditionally inserted (hyper
normalizes header names to lowercase). -/
def add_headers (entries : List (Option String × String))
    (headerRatio : List (String × Ratio)) (trial : Nat → Bool) :
    List (String × String) :=
  insertReplace (addHeadersGo headerRatio trial entries 0 "unused" none [])
    "content-type" "application/json"

/-- Source `handle` lines 137-140: the applicable header list is the subgraph
override when present, else the base list. -/
def effectiveHeaders (config : Config) (subgraphName : Option String) :
    List (Option String × String) :=
  match subgraphName.bind (fun n => mapGet config.subgraphOverrides.headers n) with
  | some hs => hs
  | none => config.headers

/-! ## Operations and response generation (`src/handle/graphql.rs` lines 158-305) -/

/-- GraphQL `apollo_compiler::ast::OperationType`. -/
inductive OperationType where
  | query
  | mutation
  | subscription
deriving DecidableEq, Repr

/-- An operation of a validated executable document, reduced to the data the
handler inspects: its type and its optional name. -/
structure Operation where
  opType : OperationType
  name : Option String
deriving DecidableEq, Repr

/-- Model of `apollo_compiler` `doc.operations.get(op_name)` (an external
crate): a `Some` name is looked up among the named operations; `None`
succeeds only when the document holds exactly one operation. -/
def operationsGet (ops : List Operation) (name : Option String) :
    Except Unit Operation :=
  match name with
  | some n =>
    match ops.find? (fun op => op.name == some n) with
    | some op => Except.ok op
    | none => Except.error ()
  | none =>
    match ops with
    | [op] => Except.ok op
    | _ => Except.error ()

/-- The body returned when `request_error_ratio` hits
(`generate_response` lines 250-254). -/
def requestErrorBody : Json :=
  Json.obj [("data", Json.null),
            ("errors", Json.arr [Json.obj [("message", Json.str "Request error simulated")]])]

/-- One entry of the `errors` array built for a dropped key
(`generate_response` lines 288-296). -/
def fieldErrorEntry (k : String) : Json :=
  Json.obj [("message", Json.str "Field error simulated"),
            ("path", Json.arr [Json.str k])]

/-- Source `generate_response` with the random draws and the schema-dependent
subcomputations as arguments:

* `requestErrorHit` — `request_error_ratio` is configured and its
  `random_ratio` trial hit;
* `introspect op` — `some r` when `op.is_introspection(doc)`, with `r` the
  result of the faithful `partial_execute` path; `none` otherwise;
* `synth` — the ordered `data` map built by `ResponseBuilder::selection_set`;
* `fieldErrorHit` — `field_error_ratio` is configured and its trial hit;
* `dropKeys` — the distinct keys sampled by
  `data.keys().choose_multiple(rng, drop_count)`, in iteration order of the
  `to_drop` set.

When `fieldErrorHit` holds and `data` is empty the source panics
(`random_range(1..=0)`); the claims below only use this branch under the
hypothesis that `data` is non-empty, matching the sampling that produced
`dropKeys`. -/
def generate_response (ops : List Operation) (opName : Option String)
    (requestErrorHit : Bool)
    (introspect : Operation → Option (Except String Json))
    (synth : Except String (List (String × Json)))
    (fieldErrorHit : Bool) (dropKeys : List String) : Except String Json :=
  match operationsGet ops opName with
  | Except.error _ => Except.ok (Json.obj [("data", Json.null)])
  | Except.ok op =>
    if requestErrorHit then Except.ok requestErrorBody
    else
      match introspect op with
      | some r => r
      | none =>
        match synth with
        | Except.error e => Except.error e
        | Except.ok data =>
          if fieldErrorHit then
            Except.ok (Json.obj
              [("data", Json.obj (data.filter (fun kv => !(dropKeys.contains kv.1)))),
               ("errors", Json.arr (dropKeys.map fieldErrorEntry))])
          else
            Except.ok (Json.obj [("data", Json.obj data)])

/-- The 400 body for an invalid query (`into_response_bytes_and_status_code`
lines 182-187): `{data: null, errors: [<diagnostics>]}`. -/
def parseErrorBody (errs : List Json) : Json :=
  Json.obj [("data", Json.null), ("errors", Json.arr errs)]

/-- Source `into_response_bytes_and_status_code` after the cache layer, as a
function of the parse-and-validate outcome and of the response generation
(closed over its random draws).  `none` models the `unwrap` panic on a
document with no operation, which a validated document never is.  The final
`serde_json::to_vec` cannot fail on the `Json` model, so the serialize-error
500 branch (lines 227-233) is unreachable here. -/
def into_response_bytes_and_status_code
    (parsed : Except (List Json) (List Operation))
    (gen : Operation → Except String Json) : Option (String × Nat) :=
  match parsed with
  | Except.error errs => some ((parseErrorBody errs).render, 400)
  | Except.ok [] => none
  | Except.ok (op :: _) =>
    match op.opType with
    | OperationType.query =>
      match gen op with
      | Except.ok resp => some (resp.render, 200)
      | Except.error _ => some ("unable to generate response", 500)
    | _ => some ("not implemented", 500)

/-! ## Response cache (`cached` attribute on
`into_response_bytes_and_status_code`, keyed by `cache_hash`) -/

/-- Lookup in the fingerprint-keyed memo map of the `cached` macro. -/
def cacheLookup {V : Type} (c : List (Nat × V)) (k : Nat) : Option V :=
  (c.find? (fun e => e.1 == k)).map (fun e => e.2)

/-- One invocation of the memoized function: on a hit the stored value is
returned and the map is untouched; on a miss the body runs (`compute` closes
over the task-local RNG state of that request) and the result is stored. -/
def cachedCall {V : Type} (c : List (Nat × V)) (k : Nat) (compute : Unit → V) :
    V × List (Nat × V) :=
  match cacheLookup c k with
  | some v => (v, c)
  | none =>
    let v := compute ()
    (v, (k, v) :: c)

/-- A sequence of requests that all share the fingerprint `k`; each element
of `computes` is the (randomized, hence different) body computation of one
request. -/
def runRequests {V : Type} (k : Nat) (computes : List (Unit → V))
    (c : List (Nat × V)) : List V × List (Nat × V) :=
  match computes with
  | [] => ([], c)
  | f :: fs =>
    let r := cachedCall c k f
    let rest := runRequests k fs r.2
    (r.1 :: rest.1, rest.2)

/-! ## Schema loading and hot reload (`src/state/schema/mod.rs`,
`src/state/schema/federation/mod.rs`) -/

/-- A field definition as far as the `_service` patching is concerned:
a name and the rendered type expression. -/
structure FieldDef where
  name : String
  ty : String
deriving DecidableEq, Repr

/-- An object type definition. -/
structure ObjectTypeDef where
  name : String
  fields : List FieldDef
deriving DecidableEq, Repr

/-- The validated-schema data the claims touch: the query root name and the
object type definitions, in definition order. -/
structure SchemaModel where
  queryRoot : Option String
  types : List ObjectTypeDef
deriving DecidableEq, Repr

/-- Model of `IndexMap::insert`: replace in place when the key exists, else
append. -/
def insertObjectType (ts : List ObjectTypeDef) (t : ObjectTypeDef) :
    List ObjectTypeDef :=
  if ts.any (fun u => u.name == t.name) then
    ts.map (fun u => if u.name == t.name then t else u)
  else ts ++ [t]

/-- Model of `IndexMap::insert` on the field map of an object type. -/
def insertField (fs : List FieldDef) (f : FieldDef) : List FieldDef :=
  if fs.any (fun g => g.name == f.name) then
    fs.map (fun g => if g.name == f.name then f else g)
  else fs ++ [f]

/-- Source `federation::patch_schema` restricted to a plain
(`FederationType::None`) schema with no federated entity members — the case
exercised by the claims: `insert_federation_types` unconditionally inserts
`_Service { sdl: String! }`; the query root must already exist (else the load
fails) and receives the field `_service: _Service!`. -/
def patch_schema_plain (s : SchemaModel) : Except String SchemaModel :=
  let types := insertObjectType s.types ⟨"_Service", [⟨"sdl", "String!"⟩]⟩
  match s.queryRoot with
  | none => Except.error "Schema does not define a query type"
  | some q =>
    if types.any (fun u => u.name == q) then
      Except.ok
        { s with
          types := types.map (fun u =>
            if u.name == q then
              { u with fields := insertField u.fields ⟨"_service", "_Service!"⟩ }
            else u) }
    else Except.error "query root is not an object"

/-- Model of the `apollo_compiler` SDL serializer (`Schema`'s `Display`,
an external crate) on the object-types fragment: every type definition is
printed as a `type N { fields }` block, so the output mentions every type
name the schema holds — in particular an injected `_Service`. -/
def renderTypeDef (t : ObjectTypeDef) : String :=
  "type " ++ t.name ++ " \x7b\n"
    ++ String.intercalate "\n" (t.fields.map (fun f => "  " ++ f.name ++ ": " ++ f.ty))
    ++ "\n\x7d\n"

/-- Serialization of a whole schema: its type blocks in order. -/
def schemaToString (s : SchemaModel) : String :=
  String.intercalate "\n" (s.types.map renderTypeDef)

/-- Rust `FederatedSchema` (`src/state/schema/mod.rs`): the validated,
patched schema plus the original source string, retained verbatim. -/
structure FederatedSchema where
  valid : SchemaModel
  source : String
deriving DecidableEq, Repr

/-- Source `FederatedSchema::parse_string` with the raw apollo AST→schema
conversion abstracted as `parse` (external crate): parse the source, patch
the schema, and on success store the patched schema alongside the verbatim
source text. -/
def parse_string (parse : String → Except String SchemaModel) (source : String) :
    Except String FederatedSchema :=
  match parse source with
  | Except.error e => Except.error e
  | Except.ok raw =>
    match patch_schema_plain raw with
    | Except.error e => Except.error e
    | Except.ok valid => Except.ok { valid := valid, source := source }

/-- Source `ResponseBuilder::selection_set`, `_service` branch (lines
504-510): the object placed under the `_service` response key.  Its `sdl`
member is `self.schema.to_string()` — the serialization of the patched,
validated schema held by the builder (`handle` passes `&schema.valid`), not
the retained `source`. -/
def serviceFieldValue (schema : SchemaModel) : Json :=
  Json.obj [("sdl", Json.str (schemaToString schema))]

/-- The string served in the `_service.sdl` field for a loaded schema. -/
def servedSdl (fs : FederatedSchema) : String :=
  schemaToString fs.valid

/-- Source `update_schema` (`src/state/schema/mod.rs` lines 64-69) with the
file read and parse pipeline abstracted as `load` and the shared
`RwLock<FederatedSchema>` cell passed explicitly: on parse failure the error
propagates before the write, leaving the cell untouched; on success the cell
is overwritten with the freshly validated schema. -/
def update_schema (load : String → Except String FederatedSchema)
    (cell : FederatedSchema) (contents : String) :
    Except String Unit × FederatedSchema :=
  match load contents with
  | Except.error e => (Except.error e, cell)
  | Except.ok s => (Except.ok (), s)

/-- Source `handle` lines 84-87: caching applies when the subgraph override
`cache_responses` is present, else the base flag decides. -/
def effectiveCacheResponses (config : Config) (subgraphName : Option String) : Bool :=
  match subgraphName.bind (fun n => mapGet config.subgraphOverrides.cacheResponses n) with
  | some b => b
  | none => config.cacheResponses

/-! ## Concrete values used by witnesses and counterexamples -/

/-- Rust `default_scalar_config()` as the key-sorted `BTreeMap` it builds;
the `Float` bounds `-1.0` and `1.0` are carried as their IEEE-754 bit
patterns. -/
def default_scalar_config : List (String × ScalarGenerator) :=
  [("Boolean", ScalarGenerator.bool),
   ("Float", ScalarGenerator.float 13830554455654793216 4607182418800017408),
   ("ID", ScalarGenerator.int 0 100),
   ("Int", ScalarGenerator.int 0 100),
   ("String", ScalarGenerator.string 1 10)]

/-- Rust `ResponseGenerationConfig::default()`. -/
def default_response_generation : ResponseGenerationConfig :=
  { scalars := default_scalar_config
    array := { minLength := 0, maxLength := 10 }
    nullRatio := some (1, 2)
    headerRatio := []
    httpErrorRatio := none
    graphqlErrors := { requestErrorRatio := none, fieldErrorRatio := none } }

/-- A server config whose `subgraph_overrides.response_generation` carries
identical override entries for the subgraphs `alpha` and `beta`; everything
else is the default configuration (base 5 ms latency with the default
10-second, 2 ms sine shape). -/
def demoConfig : Config :=
  { headers := []
    latencyGenerator := { base := 5, saw := none, sine := some ⟨2, 10000⟩,
                          square := none, triangle := none }
    responseGeneration := default_response_generation
    cacheResponses := true
    subgraphOverrides :=
      { headers := []
        latencyGenerator := []
        responseGeneration := [("alpha", default_response_generation),
                               ("beta", default_response_generation)]
        cacheResponses := [] } }

/-- A minimal plain schema source: one query root with one field. -/
def demoSource : String :=
  "type Query \x7b\n  a: Int\n\x7d\n"

/-- The apollo AST→schema conversion of `demoSource` (the external parse
step abstracted in `parse_string`), given as a function constant on the one
source it is applied to. -/
def demoParse : String → Except String SchemaModel :=
  fun _ => Except.ok { queryRoot := some "Query", types := [⟨"Query", [⟨"a", "Int"⟩]⟩] }

/-! ## Theorems -/

/-- Claim C2.  The claim states that the saw contribution equals the linear
ramp `0 → A` with value `A − 1` at the final millisecond.  On the saw shape
of `tests/test_saw_latency_config.rs` (amplitude 20 ms, period 10 s), the
source's `u64` formula computes `((t + 5000) % 10000) / 10000` — always `0`
by integer truncation — and then `0·A·2 − A`, which underflows `u64` at every
instant (a panic in debug, a wrap to `2^64 − 20` in release), while the spec
ramp yields `0`, `A/2` and `A − 1` there, as the repository's own
`assert_is_saw` test expects. -/
theorem saw_ms_underflows :
    saw_ms ⟨20, 10000⟩ 0 = none ∧
    saw_ms ⟨20, 10000⟩ 5000 = none ∧
    saw_ms ⟨20, 10000⟩ 9999 = none ∧
    saw_spec ⟨20, 10000⟩ 0 = 0 ∧
    saw_spec ⟨20, 10000⟩ 5000 = 10 ∧
    saw_spec ⟨20, 10000⟩ 9999 = 19 := by
  decide

/-- Claim C3.  The claim states every configured shape contribution is a
non-negative integer with no underflow and no division by zero.  On the saw
configuration of `tests/test_saw_latency_config.rs` the whole of
`LatencyGenerator::generate` underflows at `t = 0` (for every possible sine
oracle), and `triangle_ms` on the shape of
`tests/test_triangle_wave_latency_config.rs` (amplitude 10 ms, period 10 s)
underflows at `t = 0` computing `0 - period/4` in `u64`. -/
theorem latency_generate_underflows :
    (∀ sine_ms : Shape → Nat → Nat,
      generate sine_ms
        { base := 10, saw := some ⟨20, 10000⟩, sine := none,
          square := none, triangle := none } 0 = none) ∧
    triangle_ms ⟨10, 10000⟩ 0 = none := by
  exact ⟨fun _ => rfl, rfl⟩

/-- Claim C4 counterexample.  The claim states that two subgraphs with
identical override configs, the same query and the same schema yield
different fingerprints.  But `handle` hashes only the query text, the
effective response-generation config and the schema — never the subgraph
name — so the records fed to the `DefaultHasher` for `alpha` and `beta`
are identical, and the (deterministic) 64-bit digests coincide. -/
theorem fingerprint_same_for_distinct_subgraphs :
    fingerprintInputs demoConfig (some "alpha") "query Q \x7b posts \x7d" "schema-src" =
      fingerprintInputs demoConfig (some "beta") "query Q \x7b posts \x7d" "schema-src" := by
  rfl

/-- Claim C4 as amended: the fingerprint is a function of the query text, the
effective response-generation config and the schema identity only; when two
subgraph names resolve to the same override config the fingerprint inputs —
hence the fingerprints — are equal. -/
theorem fingerprint_ignores_subgraph_name (cfg : Config) (n1 n2 : String)
    (rc : ResponseGenerationConfig) (q s : String)
    (h1 : mapGet cfg.subgraphOverrides.responseGeneration n1 = some rc)
    (h2 : mapGet cfg.subgraphOverrides.responseGeneration n2 = some rc) :
    fingerprintInputs cfg (some n1) q s = fingerprintInputs cfg (some n2) q s := by
  simp [fingerprintInputs, effectiveRgenCfg, h1, h2]

/-- Witness for `fingerprint_ignores_subgraph_name` at the demo config. -/
theorem fingerprint_ignores_subgraph_name_witness :
    mapGet demoConfig.subgraphOverrides.responseGeneration "alpha" =
        some default_response_generation ∧
    mapGet demoConfig.subgraphOverrides.responseGeneration "beta" =
        some default_response_generation ∧
    fingerprintInputs demoConfig (some "alpha") "q" "s" =
      fingerprintInputs demoConfig (some "beta") "q" "s" :=
  ⟨rfl, rfl,
    fingerprint_ignores_subgraph_name demoConfig "alpha" "beta"
      default_response_generation "q" "s" rfl rfl⟩

lemma cacheLookup_cachedCall {V : Type} (c : List (Nat × V)) (k : Nat)
    (f : Unit → V) :
    cacheLookup (cachedCall c k f).2 k = some (cachedCall c k f).1 := by
  unfold cachedCall
  cases h : cacheLookup c k with
  | some v => simp [h]
  | none => simp [cacheLookup]

lemma runRequests_of_hit {V : Type} (k : Nat) (v : V) :
    ∀ (computes : List (Unit → V)) (c : List (Nat × V)),
      cacheLookup c k = some v →
      runRequests k computes c = (List.replicate computes.length v, c) := by
  intro computes
  induction computes with
  | nil => intro c _; rfl
  | cons f fs ih =>
    intro c h
    have hc : cachedCall c k f = (v, c) := by unfold cachedCall; rw [h]
    simp [runRequests, hc, ih c h, List.replicate]

/-- Claim C5.  With caching on, all requests sharing a fingerprint observe
one response: whatever the (randomized) body computations of the later
requests would have produced, every request after the first returns exactly
the value the first request produced — the memo map is written at most once
per key and read thereafter. -/
theorem cached_responses_constant {V : Type} (k : Nat) (f : Unit → V)
    (fs : List (Unit → V)) (c : List (Nat × V)) :
    (runRequests k (f :: fs) c).1 =
      (cachedCall c k f).1 :: List.replicate fs.length (cachedCall c k f).1 := by
  have h := cacheLookup_cachedCall c k f
  simp [runRequests, runRequests_of_hit k (cachedCall c k f).1 fs (cachedCall c k f).2 h]

/-- Claim C7.  A validated document whose selected (first) operation is a
mutation or a subscription is answered with HTTP 500 and the exact body
`not implemented`, whatever the response generator would do. -/
theorem non_query_gets_not_implemented_500 (op : Operation)
    (rest : List Operation) (gen : Operation → Except String Json)
    (h : op.opType = OperationType.mutation ∨
         op.opType = OperationType.subscription) :
    into_response_bytes_and_status_code (Except.ok (op :: rest)) gen =
      some ("not implemented", 500) := by
  rcases h with h | h <;>
    simp [into_response_bytes_and_status_code, h]

/-- Witness for `non_query_gets_not_implemented_500` on a mutation. -/
theorem non_query_gets_not_implemented_500_witness :
    ((Operation.mk OperationType.mutation none).opType = OperationType.mutation ∨
      (Operation.mk OperationType.mutation none).opType = OperationType.subscription) ∧
    into_response_bytes_and_status_code
        (Except.ok [Operation.mk OperationType.mutation none])
        (fun _ => Except.ok Json.null) =
      some ("not implemented", 500) :=
  ⟨Or.inl rfl,
    non_query_gets_not_implemented_500 (Operation.mk OperationType.mutation none)
      [] (fun _ => Except.ok Json.null) (Or.inl rfl)⟩

/-- Claim C8.  When the schema file fails to parse, patch or validate,
`update_schema` returns the error and leaves the shared cell exactly as it
was; and in every case the cell afterwards is either the prior schema or a
value that came out of the load pipeline successfully. -/
theorem update_schema_failure_keeps_previous
    (load : String → Except String FederatedSchema)
    (cell : FederatedSchema) (contents : String) :
    (∀ e, load contents = Except.error e →
      update_schema load cell contents = (Except.error e, cell)) ∧
    ((update_schema load cell contents).2 = cell ∨
      ∃ s, load contents = Except.ok s ∧
        (update_schema load cell contents).2 = s) := by
  constructor
  · intro e he
    simp [update_schema, he]
  · unfold update_schema
    cases h : load contents with
    | error e => exact Or.inl rfl
    | ok s => exact Or.inr ⟨s, rfl, rfl⟩

/-- Witness for `update_schema_failure_keeps_previous` on a failing load. -/
theorem update_schema_failure_keeps_previous_witness :
    (fun _ : String => (Except.error "parse failed" : Except String FederatedSchema))
        "bad sdl" = Except.error "parse failed" ∧
    update_schema (fun _ => Except.error "parse failed")
        ⟨⟨some "Query", []⟩, "type Query"⟩ "bad sdl" =
      (Except.error "parse failed", ⟨⟨some "Query", []⟩, "type Query"⟩) :=
  ⟨rfl,
    (update_schema_failure_keeps_previous (fun _ => Except.error "parse failed")
        ⟨⟨some "Query", []⟩, "type Query"⟩ "bad sdl").1 "parse failed" rfl⟩

/-- Claim C6.  When the `field_error_ratio` trial hits on a synthesized
response whose data has at least one key (here: `dropKeys` is the non-empty
distinct sample drawn from the keys, of size between 1 and `|data|`), the
body is `{data, errors}` with exactly the sampled keys removed from `data`,
one error entry per removed key, and the `path[0]` values of the errors are
exactly the omitted top-level keys. -/
theorem field_error_paths_match_dropped_keys
    (ops : List Operation) (opName : Option String)
    (introspect : Operation → Option (Except String Json))
    (data : List (String × Json)) (dropKeys : List String) (op : Operation)
    (hop : operationsGet ops opName = Except.ok op)
    (hintro : introspect op = none)
    (hsub : ∀ k ∈ dropKeys, k ∈ data.map Prod.fst)
    (hnd : dropKeys.Nodup)
    (hne : dropKeys ≠ [])
    (hlen : dropKeys.length ≤ data.length) :
    generate_response ops opName false introspect (Except.ok data) true dropKeys =
      Except.ok (Json.obj
        [("data", Json.obj (data.filter (fun kv => !(dropKeys.contains kv.1)))),
         ("errors", Json.arr (dropKeys.map fieldErrorEntry))]) ∧
    (∀ k, (k ∈ data.map Prod.fst ∧
        k ∉ (data.filter (fun kv => !(dropKeys.contains kv.1))).map Prod.fst) ↔
        k ∈ dropKeys) ∧
    dropKeys.Nodup ∧
    1 ≤ dropKeys.length ∧ dropKeys.length ≤ data.length := by
  refine ⟨by simp [generate_response, hop, hintro], ?_, hnd, ?_, hlen⟩
  · intro k
    constructor
    · rintro ⟨hk, hnk⟩
      by_contra hkd
      apply hnk
      rcases List.mem_map.mp hk with ⟨e, he, hek⟩
      refine List.mem_map.mpr ⟨e, List.mem_filter.mpr ⟨he, ?_⟩, hek⟩
      rw [hek]
      simp [hkd]
    · intro hkd
      refine ⟨hsub k hkd, ?_⟩
      intro hmem
      rcases List.mem_map.mp hmem with ⟨e, hef, hek⟩
      have hp := (List.mem_filter.mp hef).2
      rw [hek] at hp
      simp at hp
      exact hp hkd
  · exact Nat.succ_le_of_lt (List.length_pos.mpr hne)

/-- Witness for `field_error_paths_match_dropped_keys`: two top-level keys,
one of which is sampled for dropping. -/
theorem field_error_paths_match_dropped_keys_witness :
    (∀ k ∈ ["a"], k ∈ ([("a", Json.null), ("b", Json.bool true)]).map Prod.fst) ∧
    (["a"] : List String).Nodup ∧ (["a"] : List String) ≠ [] ∧
    generate_response [⟨OperationType.query, some "Q"⟩] (some "Q") false
        (fun _ => none) (Except.ok [("a", Json.null), ("b", Json.bool true)])
        true ["a"] =
      Except.ok (Json.obj
        [("data", Json.obj ([("a", Json.null), ("b", Json.bool true)].filter
            (fun kv => !((["a"] : List String).contains kv.1)))),
         ("errors", Json.arr ((["a"] : List String).map fieldErrorEntry))]) :=
  ⟨by decide, by decide, by decide,
    (field_error_paths_match_dropped_keys [⟨OperationType.query, some "Q"⟩]
        (some "Q") (fun _ => none) [("a", Json.null), ("b", Json.bool true)]
        ["a"] ⟨OperationType.query, some "Q"⟩ rfl rfl (by decide) (by decide)
        (by decide) (by decide)).1⟩

lemma insertReplace_keys_nodup (m : List (String × String)) (k v : String)
    (h : (m.map Prod.fst).Nodup) :
    ((insertReplace m k v).map Prod.fst).Nodup := by
  unfold insertReplace
  rw [List.map_append]
  refine List.Nodup.append ?_ (List.nodup_singleton k) ?_
  · exact List.Nodup.sublist (List.Sublist.map Prod.fst (List.filter_sublist m)) h
  · intro a ha hb
    rcases List.mem_map.mp ha with ⟨e, hef, hek⟩
    have hp := (List.mem_filter.mp hef).2
    simp only [Bool.not_eq_true', beq_eq_false_iff_ne] at hp
    simp only [List.map_cons, List.map_nil, List.mem_singleton] at hb
    exact hp (hek.trans hb)

lemma addHeadersGo_keys_nodup (ratio : List (String × Ratio)) (trial : Nat → Bool) :
    ∀ (entries : List (Option String × String)) (i : Nat) (ln : String)
      (lr : Option Ratio) (acc : List (String × String)),
      (acc.map Prod.fst).Nodup →
      ((addHeadersGo ratio trial entries i ln lr acc).map Prod.fst).Nodup := by
  intro entries
  induction entries with
  | nil => intro i ln lr acc h; simpa [addHeadersGo] using h
  | cons e rest ih =>
    intro i ln lr acc h
    obtain ⟨nameOpt, value⟩ := e
    cases nameOpt with
    | some n =>
      simp only [addHeadersGo]
      cases mapGet ratio n with
      | none => exact ih _ _ _ _ (insertReplace_keys_nodup _ _ _ h)
      | some r =>
        by_cases ht : trial i
        · simp only [ht, if_true]
          exact ih _ _ _ _ (insertReplace_keys_nodup _ _ _ h)
        · simp only [ht, if_false]
          exact ih _ _ _ _ h
    | none =>
      simp only [addHeadersGo]
      cases lr with
      | none => exact ih _ _ _ _ (insertReplace_keys_nodup _ _ _ h)
      | some r =>
        by_cases ht : trial i
        · simp only [ht, if_true]
          exact ih _ _ _ _ (insertReplace_keys_nodup _ _ _ h)
        · simp only [ht, if_false]
          exact ih _ _ _ _ h

/-- Claim C9 counterexample.  With a name `x-test` carrying two configured
values and no `header_ratio` entry (always include), the claim says the
response carries both values; but `HeaderMap::insert` replaces, so only the
second value survives and `v1` is absent. -/
theorem multi_value_header_loses_first_value :
    add_headers [(some "x-test", "v1"), (none, "v2")] [] (fun _ => true) =
      [("x-test", "v2"), ("content-type", "application/json")] ∧
    ("x-test", "v1") ∉ add_headers [(some "x-test", "v1"), (none, "v2")] []
      (fun _ => true) := by
  constructor
  · rfl
  · decide

/-- Claim C9 as amended: each `(name, value)` pair is decided by its own
`random_ratio` trial (using the ratio of the most recently seen name, with a
ratio-less name always included), and since insertion replaces, the response
carries at most one value per name — never all of a multi-valued name's
values; `Content-Type: application/json` is always present. -/
theorem add_headers_one_value_per_name (entries : List (Option String × String))
    (ratio : List (String × Ratio)) (trial : Nat → Bool) :
    ((add_headers entries ratio trial).map Prod.fst).Nodup ∧
    ("content-type", "application/json") ∈ add_headers entries ratio trial := by
  constructor
  · exact insertReplace_keys_nodup _ _ _
      (addHeadersGo_keys_nodup ratio trial entries 0 "unused" none [] (by simp))
  · unfold add_headers insertReplace
    exact List.mem_append_right _ (by simp)

/-- Claim C10.  When the operation name passed to `generate_response`
resolves to no operation of the validated document, the function succeeds
with exactly `{"data": null}` and no errors entry, and the request pipeline
serializes it to HTTP 200 rather than an error status. -/
theorem unresolved_operation_null_data
    (ops : List Operation) (opName : Option String) (requestErrorHit : Bool)
    (introspect : Operation → Option (Except String Json))
    (synth : Except String (List (String × Json)))
    (fieldErrorHit : Bool) (dropKeys : List String)
    (op : Operation) (rest : List Operation)
    (hres : operationsGet ops opName = Except.error ())
    (hq : op.opType = OperationType.query) :
    generate_response ops opName requestErrorHit introspect synth
        fieldErrorHit dropKeys = Except.ok (Json.obj [("data", Json.null)]) ∧
    into_response_bytes_and_status_code (Except.ok (op :: rest))
        (fun _ => generate_response ops opName requestErrorHit introspect synth
          fieldErrorHit dropKeys) =
      some ("\x7b\"data\":null\x7d", 200) := by
  have h1 : generate_response ops opName requestErrorHit introspect synth
      fieldErrorHit dropKeys = Except.ok (Json.obj [("data", Json.null)]) := by
    simp [generate_response, hres]
  refine ⟨h1, ?_⟩
  simp only [into_response_bytes_and_status_code, hq, h1]
  rfl

/-- Witness for `unresolved_operation_null_data`: an empty operation list
(no operation can resolve) behind a query operation in the pipeline. -/
theorem unresolved_operation_null_data_witness :
    operationsGet [] none = Except.error () ∧
    into_response_bytes_and_status_code
        (Except.ok [⟨OperationType.query, none⟩])
        (fun _ => generate_response [] none false (fun _ => none)
          (Except.ok []) false []) =
      some ("\x7b\"data\":null\x7d", 200) :=
  ⟨rfl,
    (unresolved_operation_null_data [] none false (fun _ => none)
        (Except.ok []) false [] ⟨OperationType.query, none⟩ [] rfl rfl).2⟩

/-- Claim C1.  The claim states the `_service.sdl` string equals the
original SDL source byte for byte.  `FederatedSchema` does retain the source
verbatim (and documents `sdl()` as the accessor for the response), but
`ResponseBuilder::selection_set` serves `self.schema.to_string()` — the
serialization of the patched, validated schema, which contains the injected
`_Service` machinery — so on a minimal plain schema the served string
differs from the retained source. -/
theorem service_sdl_is_not_the_source :
    ∃ fs, parse_string demoParse demoSource = Except.ok fs ∧
      fs.source = demoSource ∧ servedSdl fs ≠ demoSource := by
  refine ⟨⟨⟨some "Query",
      [⟨"Query", [⟨"a", "Int"⟩, ⟨"_service", "_Service!"⟩]⟩,
       ⟨"_Service", [⟨"sdl", "String!"⟩]⟩]⟩, demoSource⟩, rfl, rfl, ?_⟩
  decide

end SubgraphMock
